import Mathlib

/-!
Shallow embedding of the MedDocReader document-processing pipeline
(`app/models`, `app/services`, `app/database/repositories`).

Confidence scores are embedded as rationals (`ℚ`); the Python float
literals 0.8, 0.75, 0.5 etc. become the exact rationals 4/5, 3/4, 1/2.
Effectful repository and Azure/spaCy calls are embedded by explicit
fault injection: every call site receives an `Except String _` outcome
from an environment record, `.error msg` meaning the call raised an
exception with message `msg`.
-/

deriving instance DecidableEq for Except

namespace MedDoc

/-- `ProcessingStatus` enum from `app/models/__init__.py`. -/
inductive ProcessingStatus where
  | pending
  | processing
  | completed
  | failed
  | needsReview
  deriving DecidableEq, Repr

/-- `ProcessingStatus.value`: the string value of each enum member. -/
def ProcessingStatus.value : ProcessingStatus → String
  | .pending => "pending"
  | .processing => "processing"
  | .completed => "completed"
  | .failed => "failed"
  | .needsReview => "needs_review"

/-- `ConfidenceLevel` enum from `app/models/__init__.py`. -/
inductive ConfidenceLevel where
  | high
  | medium
  | low
  deriving DecidableEq, Repr

/-! The float constants 0.5, 0.6, 0.7, 0.75, 0.8, 0.9 of the source are
embedded as exact rationals.  Each is written as an explicit normalized
fraction (rather than `a/b`, whose normalization involves `Nat.gcd` and
does not kernel-reduce), so that concrete runs can be evaluated by
`decide`; the bridging lemmas below prove them equal to the usual
`a/b` literals. -/

/-- 0.5 as an exact rational. -/
def qHalf : ℚ := ⟨1, 2, by norm_num, by norm_num⟩

/-- 0.6 as an exact rational. -/
def qThreeFifths : ℚ := ⟨3, 5, by norm_num, by norm_num⟩

/-- 0.7 as an exact rational. -/
def qSevenTenths : ℚ := ⟨7, 10, by norm_num, by norm_num⟩

/-- 0.75 as an exact rational. -/
def qThreeQuarters : ℚ := ⟨3, 4, by norm_num, by norm_num⟩

/-- 0.8 as an exact rational. -/
def qFourFifths : ℚ := ⟨4, 5, by norm_num, by norm_num⟩

/-- 0.9 as an exact rational. -/
def qNineTenths : ℚ := ⟨9, 10, by norm_num, by norm_num⟩

/-- `ExtractedField` dataclass: value, confidence score and raw text. -/
structure ExtractedField where
  value : Option String := none
  confidence : ℚ := 0
  raw_text : Option String := none
  deriving DecidableEq, Repr

/-- `ExtractedField.confidence_level`: high if confidence ≥ 0.8, else
medium if ≥ 0.5, else low. -/
def ExtractedField.confidence_level (f : ExtractedField) : ConfidenceLevel :=
  if f.confidence ≥ qFourFifths then .high
  else if f.confidence ≥ qHalf then .medium
  else .low

/-- `ExtractedField.needs_review`: confidence < 0.75. -/
def ExtractedField.needs_review (f : ExtractedField) : Bool :=
  f.confidence < qThreeQuarters

/-- `PatientData` dataclass: the six extracted fields, all defaulting to
an empty `ExtractedField`. -/
structure PatientData where
  name : ExtractedField := {}
  date_of_birth : ExtractedField := {}
  insurance_id : ExtractedField := {}
  address : ExtractedField := {}
  phone : ExtractedField := {}
  email : ExtractedField := {}
  deriving DecidableEq, Repr

/-- The ordered field dictionary built inside
`PatientData.get_low_confidence_fields`. -/
def PatientData.fieldList (pd : PatientData) : List (String × ExtractedField) :=
  [("name", pd.name),
   ("date_of_birth", pd.date_of_birth),
   ("insurance_id", pd.insurance_id),
   ("address", pd.address),
   ("phone", pd.phone),
   ("email", pd.email)]

/-- `PatientData.get_low_confidence_fields`: the sub-dictionary of fields
whose `needs_review` is true (Python dict preserves insertion order, so a
list of pairs). -/
def PatientData.get_low_confidence_fields (pd : PatientData) :
    List (String × ExtractedField) :=
  pd.fieldList.filter (fun kv => kv.2.needs_review)

/-- `ProcessingResult` dataclass (the `processing_time` float is not
modelled; no claim mentions it). `document_id` is `Option Nat` because
the Python `int` slot can in fact receive `None`. -/
structure ProcessingResult where
  document_id : Option Nat
  success : Bool
  extracted_data : Option PatientData := none
  errors : List String := []
  confidence_score : ℚ := 0
  deriving DecidableEq, Repr

/-! ### NLPService extraction helpers

The regular expressions of `NLPService` are compiled by hand.  For the
phone and insurance patterns every greedy optional/star piece has a
character class disjoint from the piece that follows it, so greedy
matching without backtracking is equivalent to Python `re` semantics.
The email pattern does need backtracking (the classes overlap on `.`),
implemented by trying longer matches first, exactly Python's order.
`re.search` tries match positions left to right. -/

/-- Python `\s` on ASCII text: space, tab, newline, CR, VT, FF. -/
def isReSpace (c : Char) : Bool :=
  c = ' ' || c = '\t' || c = '\n' || c = '\r' || c = '\x0b' || c = '\x0c'

/-- The separator class `[-.\s]` of the phone pattern. -/
def isSepChar (c : Char) : Bool :=
  c = '-' || c = '.' || isReSpace c

/-- Consume one optional character matching `p` (regex `X?`, greedy). -/
def skipOpt (p : Char → Bool) : List Char → List Char
  | [] => []
  | c :: cs => if p c then cs else c :: cs

/-- Consume exactly `n` digits (regex `\d{n}`), returning them and the
rest. -/
def digitsN : Nat → List Char → Option (List Char × List Char)
  | 0, cs => some ([], cs)
  | _ + 1, [] => none
  | n + 1, c :: cs =>
    if c.isDigit then (digitsN n cs).map (fun dr => (c :: dr.1, dr.2)) else none

/-- Match `NLPService._extract_phone`'s pattern
`\(?(\d{3})\)?[-.\s]?(\d{3})[-.\s]?(\d{4})` at the head of `cs` and
build the formatted result `(AAA) BBB-CCCC`. -/
def matchPhoneAt (cs : List Char) : Option String :=
  let cs := skipOpt (fun c => c = '(') cs
  match digitsN 3 cs with
  | none => none
  | some (a, cs) =>
    let cs := skipOpt (fun c => c = ')') cs
    let cs := skipOpt isSepChar cs
    match digitsN 3 cs with
    | none => none
    | some (b, cs) =>
      let cs := skipOpt isSepChar cs
      match digitsN 4 cs with
      | none => none
      | some (d, _) =>
        some ("(" ++ String.mk a ++ ") " ++ String.mk b ++ "-" ++ String.mk d)

/-- `re.search`: try the matcher at each position, left to right. -/
def reSearch {α : Type} (m : List Char → Option α) : List Char → Option α
  | [] => m []
  | c :: cs =>
    match m (c :: cs) with
    | some r => some r
    | none => reSearch m cs

/-- `NLPService._extract_phone`. -/
def extract_phone (text : String) : Option String :=
  reSearch matchPhoneAt text.data

/-- Case-insensitive literal match (`re.IGNORECASE`); the pattern is
given in lowercase. -/
def matchLowerLit : List Char → List Char → Option (List Char)
  | [], cs => some cs
  | _ :: _, [] => none
  | p :: ps, c :: cs => if c.toLower = p then matchLowerLit ps cs else none

/-- The captured class `[A-Z0-9\-]` under `re.IGNORECASE` (so lowercase
letters match too). -/
def isInsChar (c : Char) : Bool :=
  ('A' ≤ c && c ≤ 'Z') || ('a' ≤ c && c ≤ 'z') || c.isDigit || c = '-'

/-- The common tail `\s*[#:]?\s*([A-Z0-9\-]+)` of the three insurance
patterns, returning the captured group. -/
def matchInsTailAt (cs : List Char) : Option String :=
  let cs := cs.dropWhile isReSpace
  let cs := skipOpt (fun c => c = '#' || c = ':') cs
  let cs := cs.dropWhile isReSpace
  let run := cs.takeWhile isInsChar
  if run.isEmpty then none else some (String.mk run)

/-- Match `kw` (first two insurance patterns) followed by the common
tail at the head of `cs`. -/
def matchKeywordAt (kw : List Char) (cs : List Char) : Option String :=
  match matchLowerLit kw cs with
  | none => none
  | some rest => matchInsTailAt rest

/-- Match the third pattern `member\s*id\s*[#:]?\s*([A-Z0-9\-]+)`. -/
def matchMemberIdAt (cs : List Char) : Option String :=
  match matchLowerLit "member".data cs with
  | none => none
  | some rest =>
    match matchLowerLit "id".data (rest.dropWhile isReSpace) with
    | none => none
    | some rest2 => matchInsTailAt rest2

/-- `NLPService._extract_insurance_info`: the three patterns are tried
in order, each with a full `re.search`. -/
def extract_insurance_info (text : String) : Option String :=
  match reSearch (matchKeywordAt "insurance".data) text.data with
  | some r => some r
  | none =>
    match reSearch (matchKeywordAt "policy".data) text.data with
    | some r => some r
    | none => reSearch matchMemberIdAt text.data

/-- Python `\w` on ASCII text. -/
def isWordChar (c : Char) : Bool :=
  ('A' ≤ c && c ≤ 'Z') || ('a' ≤ c && c ≤ 'z') || c.isDigit || c = '_'

/-- The local-part class `[A-Za-z0-9._%+-]`. -/
def isLocalChar (c : Char) : Bool :=
  ('A' ≤ c && c ≤ 'Z') || ('a' ≤ c && c ≤ 'z') || c.isDigit ||
  c = '.' || c = '_' || c = '%' || c = '+' || c = '-'

/-- The domain class `[A-Za-z0-9.-]`. -/
def isDomChar (c : Char) : Bool :=
  ('A' ≤ c && c ≤ 'Z') || ('a' ≤ c && c ≤ 'z') || c.isDigit ||
  c = '.' || c = '-'

/-- The top-level-domain class `[A-Z|a-z]` — which literally contains
the `|` character. -/
def isTldChar (c : Char) : Bool :=
  ('A' ≤ c && c ≤ 'Z') || ('a' ≤ c && c ≤ 'z') || c = '|'

/-- `\b` after `last`, looking at the rest of the text. -/
def boundaryAfter (last : Char) (rest : List Char) : Bool :=
  match rest with
  | [] => isWordChar last
  | c :: _ => isWordChar last != isWordChar c

/-- Backtracking over `[A-Z|a-z]{2,}\b`: try the longest candidate
first (`j` is the candidate length), Python's greedy order. -/
def tryTld (pre : String) (rest3 : List Char) : Nat → Option String
  | 0 => none
  | 1 => none
  | j + 2 =>
    let cand := rest3.take (j + 2)
    let hit :=
      if cand.length = j + 2 && cand.all isTldChar then
        match cand.getLast? with
        | some last =>
          if boundaryAfter last (rest3.drop (j + 2)) then
            some (pre ++ String.mk cand)
          else none
        | none => none
      else none
    match hit with
    | some r => some r
    | none => tryTld pre rest3 (j + 1)

/-- Backtracking over `[A-Za-z0-9.-]+\.` followed by the TLD part: try
the longest domain first (`k` is the domain length). -/
def tryDom (localPart : String) (rest2 : List Char) : Nat → Option String
  | 0 => none
  | k + 1 =>
    let cand := rest2.take (k + 1)
    let hit :=
      if cand.length = k + 1 && cand.all isDomChar then
        match rest2.drop (k + 1) with
        | [] => none
        | c :: rest3 =>
          if c = '.' then
            tryTld (localPart ++ "@" ++ String.mk cand ++ ".") rest3 rest3.length
          else none
      else none
    match hit with
    | some r => some r
    | none => tryDom localPart rest2 k

/-- Match the email pattern
`\b[A-Za-z0-9._%+-]+@[A-Za-z0-9.-]+\.[A-Z|a-z]{2,}\b` at the head of
`cs`; `prev` is the character before the match position (for `\b`). -/
def matchEmailAt (prev : Option Char) (cs : List Char) : Option String :=
  let lRun := cs.takeWhile isLocalChar
  match lRun with
  | [] => none
  | f :: _ =>
    let prevWord := match prev with | none => false | some c => isWordChar c
    if prevWord = isWordChar f then none
    else
      match cs.drop lRun.length with
      | [] => none
      | c :: rest2 =>
        if c = '@' then tryDom (String.mk lRun) rest2 rest2.length else none

/-- `re.search` for the email pattern, threading the previous character
for the word-boundary assertion. -/
def searchEmail (prev : Option Char) : List Char → Option String
  | [] => none
  | c :: cs =>
    match matchEmailAt prev (c :: cs) with
    | some r => some r
    | none => searchEmail (some c) cs

/-- `NLPService._extract_email`. -/
def extract_email (text : String) : Option String :=
  searchEmail none text.data

/-- Python `str.strip()` (ASCII whitespace). -/
def pyStrip (s : String) : String :=
  String.mk (((s.data.dropWhile isReSpace).reverse.dropWhile isReSpace).reverse)

/-- `NLPService._clean_date`: keep only digits, hyphens and slashes. -/
def clean_date (s : String) : String :=
  String.mk (s.data.filter (fun c => c.isDigit || c = '-' || c = '/'))

/-- One step of the entity loop in `NLPService.extract_patient_data`:
a spaCy entity is a (label, text) pair; `PERSON` sets the name field,
`DATE` sets the date-of-birth field, later entities overwrite earlier
ones. -/
def applyEnt (pd : PatientData) (ent : String × String) : PatientData :=
  if ent.1 = "PERSON" then
    { pd with name := { value := some (pyStrip ent.2), confidence := qFourFifths,
                        raw_text := some ent.2 } }
  else if ent.1 = "DATE" then
    { pd with date_of_birth := { value := some (clean_date ent.2),
                                 confidence := qSevenTenths, raw_text := some ent.2 } }
  else pd

/-- `NLPService.extract_patient_data`.  `nlpRun` is the outcome of the
`self.nlp(text)` call: either the entity list of the resulting doc, or
an exception — which the method catches, returning an empty
`PatientData`.  After the entity loop the insurance, phone and email
extractors run on the raw text; the address field is never assigned. -/
def extract_patient_data (nlpRun : Except String (List (String × String)))
    (text : String) : PatientData :=
  match nlpRun with
  | .error _ => {}
  | .ok ents =>
    let pd := ents.foldl applyEnt {}
    let pd :=
      match extract_insurance_info text with
      | some s => { pd with insurance_id := { value := some s,
                                              confidence := qThreeFifths,
                                              raw_text := some s } }
      | none => pd
    let pd :=
      match extract_phone text with
      | some s => { pd with phone := { value := some s, confidence := qSevenTenths,
                                       raw_text := some s } }
      | none => pd
    match extract_email text with
    | some s => { pd with email := { value := some s, confidence := qNineTenths,
                                     raw_text := some s } }
    | none => pd

/-- `DocumentProcessingService._calculate_overall_confidence`: mean of
the six per-field confidences that are strictly positive; 0.0 when none
is positive. -/
def calculate_overall_confidence (pd : PatientData) : ℚ :=
  let fields : List ℚ :=
    [pd.name.confidence, pd.date_of_birth.confidence,
     pd.insurance_id.confidence, pd.address.confidence,
     pd.phone.confidence, pd.email.confidence]
  let valid := fields.filter (fun c => 0 < c)
  if valid = [] then 0 else valid.sum / valid.length

/-! ### The document-processing pipeline

`DocumentProcessingService.process_document` makes a fixed sequence of
effectful calls.  Each call site receives its outcome from a `PipeEnv`
record: `.error msg` means the call raised.  The database is modelled
as the single document row the run creates, the patient row and the
processing log. -/

/-- The document row as stored by `DocumentRepository`: `update_status`
overwrites all three of status, extracted text and errors (passing SQL
`NULL` for absent arguments). -/
structure DocRecord where
  status : ProcessingStatus
  extracted_text : Option String
  processing_errors : Option (List String)
  deriving DecidableEq, Repr

/-- A row of `processing_logs` written by
`ProcessingLogRepository.create_log`. -/
structure LogEntry where
  document_id : Option Nat
  status : String
  message : String
  confidence_score : ℚ
  deriving DecidableEq, Repr

/-- Database state visible to one `process_document` run. -/
structure DB where
  doc : Option DocRecord
  logs : List LogEntry
  patient : Option PatientData
  deriving DecidableEq, Repr

/-- The empty database. -/
def DB.init : DB := ⟨none, [], none⟩

/-- Outcomes of the effectful call sites inside `process_document`, in
program order.  `create` covers `_create_document_from_file` plus
`DocumentRepository.create` (its `.ok` value is the returned id, which
the repository can report as `None`).  `azureText` is the return value
of `AzureFormRecognizerService.extract_text_from_document`, which
catches its own exceptions and returns `None` instead of raising.
`nlpRun` is the outcome of the spaCy call inside
`NLPService.extract_patient_data` (caught there).  The last two fields
feed the `except` handler's own repository calls. -/
structure PipeEnv where
  create : Except String (Option Nat)
  updStatusProcessing : Except String Unit
  logStart : Except String Unit
  azureText : Option String
  updStatusText : Except String Unit
  nlpRun : Except String (List (String × String))
  patientCreate : Except String Unit
  updStatusFinal : Except String Unit
  logFinal : Except String Unit
  updStatusFailed : Except String Unit
  logFailed : Except String Unit
  deriving Repr

/-- A fault escaping the `try` block of `process_document`: the message
of the raised exception, the state of the local `document_id`
(`none` = still unbound), and the database at that point. -/
structure Fault where
  msg : String
  docId : Option (Option Nat)
  db : DB

/-- `DocumentRepository.update_status` applied to the run's document:
the SQL `UPDATE ... WHERE id = %s` touches the created row exactly when
an id was returned for it. -/
def DB.updateStatus (db : DB) (docId : Option Nat) (st : ProcessingStatus)
    (text : Option String) (errs : Option (List String)) : DB :=
  match docId with
  | none => db
  | some _ => { db with doc := db.doc.map (fun _ => ⟨st, text, errs⟩) }

/-- `ProcessingLogRepository.create_log`. -/
def DB.addLog (db : DB) (docId : Option Nat) (st : String) (message : String)
    (conf : ℚ) : DB :=
  { db with logs := db.logs ++ [⟨docId, st, message, conf⟩] }

/-- The `try` block of `DocumentProcessingService.process_document`,
line by line.  A raised exception becomes `.error` carrying the
database state and whether `document_id` was bound. -/
def processBody (env : PipeEnv) (db0 : DB) :
    Except Fault (DB × ProcessingResult) :=
  match env.create with
  | .error e => .error ⟨e, none, db0⟩
  | .ok docId =>
    let db1 : DB :=
      match docId with
      | some _ => { db0 with doc := some ⟨.pending, some "", some []⟩ }
      | none => db0
    match env.updStatusProcessing with
    | .error e => .error ⟨e, some docId, db1⟩
    | .ok _ =>
      let db2 := db1.updateStatus docId .processing none none
      match env.logStart with
      | .error e => .error ⟨e, some docId, db2⟩
      | .ok _ =>
        let db3 := db2.addLog docId "processing" "Started document processing" 0
        match env.azureText with
        | none => .error ⟨"No text extracted from document", some docId, db3⟩
        | some t =>
          if (pyStrip t) = "" then
            .error ⟨"No text extracted from document", some docId, db3⟩
          else
            match env.updStatusText with
            | .error e => .error ⟨e, some docId, db3⟩
            | .ok _ =>
              let db4 := db3.updateStatus docId .processing (some t) none
              let pd := extract_patient_data env.nlpRun t
              match env.patientCreate with
              | .error e => .error ⟨e, some docId, db4⟩
              | .ok _ =>
                let db5 := { db4 with patient := some pd }
                let conf := calculate_overall_confidence pd
                let finalStatus : ProcessingStatus :=
                  if pd.get_low_confidence_fields ≠ [] then .needsReview
                  else .completed
                let message :=
                  if pd.get_low_confidence_fields ≠ [] then
                    "Document processed but needs human review for low-confidence fields"
                  else "Document processed successfully"
                match env.updStatusFinal with
                | .error e => .error ⟨e, some docId, db5⟩
                | .ok _ =>
                  let db6 := db5.updateStatus docId finalStatus (some t) none
                  match env.logFinal with
                  | .error e => .error ⟨e, some docId, db6⟩
                  | .ok _ =>
                    let db7 := db6.addLog docId finalStatus.value message conf
                    .ok (db7, { document_id := docId, success := true,
                                extracted_data := some pd,
                                confidence_score := conf })

/-- The `except` handler of `process_document`.  It evaluates
`if document_id:` — when the fault happened before `document_id` was
assigned this itself raises `UnboundLocalError`, and any exception out
of the handler's own repository calls also escapes; both surface as
`.error`. -/
def handleFault (env : PipeEnv) (f : Fault) :
    Except String (DB × ProcessingResult) :=
  let errMsg := "Error processing document: " ++ f.msg
  match f.docId with
  | none =>
    .error "UnboundLocalError: cannot access local variable 'document_id' where it is not associated with a value"
  | some idv =>
    if idv.getD 0 ≠ 0 then
      match env.updStatusFailed with
      | .error e => .error e
      | .ok _ =>
        let db' := f.db.updateStatus idv .failed none (some [errMsg])
        match env.logFailed with
        | .error e => .error e
        | .ok _ =>
          let db'' := db'.addLog idv "failed" errMsg 0
          .ok (db'', { document_id := some (idv.getD 0), success := false,
                       errors := [errMsg] })
    else
      .ok (f.db, { document_id := some (idv.getD 0), success := false,
                   errors := [errMsg] })

/-- `DocumentProcessingService.process_document`: the `try` block plus
its `except` handler. -/
def process_document (env : PipeEnv) (db0 : DB) :
    Except String (DB × ProcessingResult) :=
  match processBody env db0 with
  | .ok r => .ok r
  | .error f => handleFault env f

/-! ### Batch processing -/

/-- Suffix test on strings via their character lists (`fnmatch` of the
glob pattern `*ext` matches exactly the names ending in `ext`).  The
char-list form kernel-reduces, unlike `String.endsWith`. -/
def strEndsWith (s post : String) : Bool :=
  post.data.isSuffixOf s.data

/-- Python `str.upper()` on ASCII text. -/
def strToUpper (s : String) : String :=
  String.mk (s.data.map Char.toUpper)

/-- Python `str.lower()` on ASCII text. -/
def strToLower (s : String) : String :=
  String.mk (s.data.map Char.toLower)

/-- `AppConfig.supported_formats`. -/
def supported_formats : List String :=
  [".jpg", ".jpeg", ".png", ".tiff", ".pdf"]

/-- File discovery in `DocumentProcessingService.process_batch`: for
each supported extension, `folder.glob` with the extension as given and
then uppercased — i.e. the filenames ending in `ext` and then those
ending in `ext.upper()`, in the folder's listing order. -/
def supportedFiles (entries : List String) : List String :=
  (supported_formats.map (fun ext =>
    entries.filter (fun f => strEndsWith f ext) ++
    entries.filter (fun f => strEndsWith f (strToUpper ext)))).flatten

/-- One loop iteration of `process_batch`: `process_document` inside
`try/except`; an escaped exception is converted to a failure result
with `document_id=0`. -/
def batchStep (run : Except String (DB × ProcessingResult)) : ProcessingResult :=
  match run with
  | .ok r => r.2
  | .error e => { document_id := some 0, success := false, errors := [e] }

/-- `DocumentProcessingService.process_batch` over the discovered
files; `envOf` gives each file's environment. -/
def process_batch (entries : List String) (envOf : String → PipeEnv) :
    List ProcessingResult :=
  (supportedFiles entries).map (fun f => batchStep (process_document (envOf f) DB.init))

/-! ### `DocumentRepository.get_needing_review` -/

/-- One row of the `documents` table as it matters to the review query. -/
structure DocRow where
  id : Nat
  status : ProcessingStatus
  deriving DecidableEq, Repr

/-- The confidence columns of a `patients` row (nullable). -/
structure PatientRow where
  name_confidence : Option ℚ
  dob_confidence : Option ℚ
  insurance_confidence : Option ℚ
  address_confidence : Option ℚ
  phone_confidence : Option ℚ
  email_confidence : Option ℚ
  deriving DecidableEq, Repr

/-- SQL `col < 0.75`: `NULL` compares to nothing. -/
def sqlLtThreshold : Option ℚ → Bool
  | none => false
  | some c => c < qThreeQuarters

/-- The `WHERE` clause of `DocumentRepository.get_needing_review`:
status `needs_review`, or one of the `name`/`dob`/`insurance`
confidence columns of the left-joined patient row below 0.75. -/
def needingReviewPred (d : DocRow) (p : Option PatientRow) : Bool :=
  d.status = ProcessingStatus.needsReview ||
    (match p with
     | none => false
     | some pr =>
       sqlLtThreshold pr.name_confidence ||
       sqlLtThreshold pr.dob_confidence ||
       sqlLtThreshold pr.insurance_confidence)

/-- `DocumentRepository.get_needing_review` over the joined rows (in
query order). -/
def get_needing_review (rows : List (DocRow × Option PatientRow)) : List DocRow :=
  (rows.filter (fun dp => needingReviewPred dp.1 dp.2)).map (fun dp => dp.1)

/-! ### `DocumentProcessingService.update_patient_data` -/

/-- Call-site outcomes for `update_patient_data`: the patient-row
`UPDATE` (returning whether a row was affected), the status update and
the log write. -/
structure ReviewEnv where
  patientUpdate : Except String Bool
  updStatusCompleted : Except String Unit
  logCompleted : Except String Unit
  deriving Repr

/-- State of the reviewed document as `update_patient_data` sees it. -/
structure ReviewState where
  status : ProcessingStatus
  patient : Option PatientData
  logs : List LogEntry
  deriving DecidableEq, Repr

/-- The `try` block of `DocumentProcessingService.update_patient_data`:
write the patient data; only on a successful write set the status to
`completed` and log.  A raised exception carries the state reached so
far. -/
def updatePatientBody (env : ReviewEnv) (pd : PatientData) (st : ReviewState)
    (docId : Nat) : Except (String × ReviewState) (Bool × ReviewState) :=
  match env.patientUpdate with
  | .error e => .error (e, st)
  | .ok ok =>
    if ok then
      let st1 := { st with patient := some pd }
      match env.updStatusCompleted with
      | .error e => .error (e, st1)
      | .ok _ =>
        let st2 := { st1 with status := ProcessingStatus.completed }
        match env.logCompleted with
        | .error e => .error (e, st2)
        | .ok _ =>
          (.ok (true, { st2 with logs := st2.logs ++
            [⟨some docId, "completed", "Patient data updated after human review", 0⟩] }))
    else .ok (false, st)

/-- `DocumentProcessingService.update_patient_data`: the `try` block
plus its `except` handler, which catches every exception and returns
`False`. -/
def update_patient_data (env : ReviewEnv) (pd : PatientData) (st : ReviewState)
    (docId : Nat) : Bool × ReviewState :=
  match updatePatientBody env pd st docId with
  | .ok r => r
  | .error es => (false, es.2)

/-- The list of strictly positive per-field confidences of a
`PatientData`, in field order (for stating the overall-confidence
claim). -/
def positiveConfidences (pd : PatientData) : List ℚ :=
  (pd.fieldList.map (fun kv => kv.2.confidence)).filter (fun c => 0 < c)

/-- An environment where document creation itself faults (e.g. the file
does not exist, so `Path.stat()` raises before `document_id` is
assigned); every other call site would succeed. -/
def c1Env : PipeEnv :=
  { create := .error "No such file or directory",
    updStatusProcessing := .ok (), logStart := .ok (),
    azureText := some "some text", updStatusText := .ok (),
    nlpRun := .ok [], patientCreate := .ok (),
    updStatusFinal := .ok (), logFinal := .ok (),
    updStatusFailed := .ok (), logFailed := .ok () }

/-- An environment reaching the empty-extracted-text check: creation
succeeds, Azure returns whitespace-only text. -/
def c5Env : PipeEnv :=
  { create := .ok (some 1),
    updStatusProcessing := .ok (), logStart := .ok (),
    azureText := some "  ", updStatusText := .ok (),
    nlpRun := .ok [], patientCreate := .ok (),
    updStatusFinal := .ok (), logFinal := .ok (),
    updStatusFailed := .ok (), logFailed := .ok () }

/-- The review predicate as the claim words it (for comparison with
`needingReviewPred` from the source): status `needs_review` OR any of
the SIX per-field confidences below 0.75.  The source's SQL checks only
the name, date-of-birth and insurance columns. -/
def claimNeedingReviewPred (d : DocRow) (p : Option PatientRow) : Bool :=
  d.status = ProcessingStatus.needsReview ||
    (match p with
     | none => false
     | some pr =>
       sqlLtThreshold pr.name_confidence ||
       sqlLtThreshold pr.dob_confidence ||
       sqlLtThreshold pr.insurance_confidence ||
       sqlLtThreshold pr.address_confidence ||
       sqlLtThreshold pr.phone_confidence ||
       sqlLtThreshold pr.email_confidence)

/-- Supported-file test as the claim words it (for comparison with
`supportedFiles` from the source): the extension is in the supported
set matched case-insensitively. -/
def claimSupportedFile (f : String) : Bool :=
  supported_formats.any (fun ext => strEndsWith (strToLower f) ext)

/-- A trivially succeeding per-file environment for batch runs. -/
def c7Env : PipeEnv :=
  { create := .ok (some 3),
    updStatusProcessing := .ok (), logStart := .ok (),
    azureText := some "text", updStatusText := .ok (),
    nlpRun := .ok [], patientCreate := .ok (),
    updStatusFinal := .ok (), logFinal := .ok (),
    updStatusFailed := .ok (), logFailed := .ok () }

/-- A fully successful environment for a happy-path run (text
`"hello"`, no entities). -/
def c2Env : PipeEnv :=
  { create := .ok (some 1),
    updStatusProcessing := .ok (), logStart := .ok (),
    azureText := some "hello", updStatusText := .ok (),
    nlpRun := .ok [], patientCreate := .ok (),
    updStatusFinal := .ok (), logFinal := .ok (),
    updStatusFailed := .ok (), logFailed := .ok () }

/-- A second fully successful environment (text `"scan text"`, no
entities). -/
def c9Env : PipeEnv :=
  { create := .ok (some 2),
    updStatusProcessing := .ok (), logStart := .ok (),
    azureText := some "scan text", updStatusText := .ok (),
    nlpRun := .ok [], patientCreate := .ok (),
    updStatusFinal := .ok (), logFinal := .ok (),
    updStatusFailed := .ok (), logFailed := .ok () }

/-! ## Theorems about the claims -/

/-- `qHalf` is the rational 1/2. -/
lemma qHalf_eq : qHalf = 1/2 := by
  rw [qHalf, Rat.mk'_eq_divInt]
  norm_num [Rat.divInt_eq_div]

/-- `qThreeQuarters` is the rational 3/4. -/
lemma qThreeQuarters_eq : qThreeQuarters = 3/4 := by
  rw [qThreeQuarters, Rat.mk'_eq_divInt]
  norm_num [Rat.divInt_eq_div]

/-- `qFourFifths` is the rational 4/5. -/
lemma qFourFifths_eq : qFourFifths = 4/5 := by
  rw [qFourFifths, Rat.mk'_eq_divInt]
  norm_num [Rat.divInt_eq_div]

/-- C4: `confidence_level` is high iff confidence ≥ 0.8, medium iff
0.5 ≤ confidence < 0.8, low iff confidence < 0.5 — a total,
non-overlapping partition — and `needs_review` holds iff
confidence < 0.75, independently of those boundaries. -/
theorem C4_confidence_partition (f : ExtractedField) :
    (f.confidence_level = ConfidenceLevel.high ↔ 4/5 ≤ f.confidence) ∧
    (f.confidence_level = ConfidenceLevel.medium ↔
      1/2 ≤ f.confidence ∧ f.confidence < 4/5) ∧
    (f.confidence_level = ConfidenceLevel.low ↔ f.confidence < 1/2) ∧
    (f.needs_review = true ↔ f.confidence < 3/4) := by
  unfold ExtractedField.confidence_level ExtractedField.needs_review
  rw [qFourFifths_eq, qHalf_eq, qThreeQuarters_eq]
  split_ifs with h1 h2 <;> (simp_all
    <;> linarith)

/-- C6: the overall confidence computed by the pipeline is the
arithmetic mean of the per-field confidences that are strictly
positive, and 0 when no field has positive confidence. -/
theorem C6_overall_confidence (pd : PatientData) :
    calculate_overall_confidence pd =
      if positiveConfidences pd = [] then 0
      else (positiveConfidences pd).sum / (positiveConfidences pd).length := by
  rfl

/-- C1: the claim says every fault raised inside `process_document` is
caught and converted into a `ProcessingResult(success=false)`.  The
code violates this: when the fault happens before `document_id` is
assigned (e.g. document creation fails), the `except` handler's own
`if document_id:` raises `UnboundLocalError`, which propagates to the
caller instead of a result being returned. -/
theorem C1_fault_escapes_handler :
    process_document c1Env DB.init =
      .error "UnboundLocalError: cannot access local variable 'document_id' where it is not associated with a value" := by
  rfl

/-- C5: when document creation succeeded but the extracted text is
empty or whitespace-only, `process_document` transitions the document
to `failed`, stores the fault message "No text extracted from document"
(inside the recorded error string), and returns
`ProcessingResult(success=false)` whose errors contain that message. -/
theorem C5_empty_text_fails (env : PipeEnv) (id : Nat) (t : String)
    (hc : env.create = .ok (some (id + 1)))
    (hu1 : env.updStatusProcessing = .ok ())
    (hl1 : env.logStart = .ok ())
    (hs : env.azureText = some t)
    (ht : pyStrip t = "")
    (huf : env.updStatusFailed = .ok ())
    (hlf : env.logFailed = .ok ()) :
    process_document env DB.init =
      .ok (⟨some ⟨ProcessingStatus.failed, none,
              some ["Error processing document: No text extracted from document"]⟩,
            [⟨some (id + 1), "processing", "Started document processing", 0⟩,
             ⟨some (id + 1), "failed",
              "Error processing document: No text extracted from document", 0⟩],
            none⟩,
           ⟨some (id + 1), false, none,
            ["Error processing document: No text extracted from document"], 0⟩) ∧
    (∃ pre post : String,
      "Error processing document: No text extracted from document" =
        pre ++ "No text extracted from document" ++ post) := by
  refine ⟨?_, "Error processing document: ", "", rfl⟩
  simp [process_document, processBody, handleFault, hc, hu1, hl1, hs, ht,
    huf, hlf, DB.init, DB.updateStatus, DB.addLog]

/-- Witness: `C5_empty_text_fails` applied to `c5Env` with the
whitespace-only text `"  "`. -/
theorem C5_empty_text_fails_witness :
    process_document c5Env DB.init =
      .ok (⟨some ⟨ProcessingStatus.failed, none,
              some ["Error processing document: No text extracted from document"]⟩,
            [⟨some 1, "processing", "Started document processing", 0⟩,
             ⟨some 1, "failed",
              "Error processing document: No text extracted from document", 0⟩],
            none⟩,
           ⟨some 1, false, none,
            ["Error processing document: No text extracted from document"], 0⟩) ∧
    (∃ pre post : String,
      "Error processing document: No text extracted from document" =
        pre ++ "No text extracted from document" ++ post) :=
  C5_empty_text_fails c5Env 0 "  " rfl rfl rfl rfl (by decide) rfl rfl

/-- Any result the `except` handler returns has `success = false`: a
fault never yields a successful `ProcessingResult`. -/
lemma handleFault_success_false (env : PipeEnv) (f : Fault) (db : DB)
    (res : ProcessingResult) (h : handleFault env f = .ok (db, res)) :
    res.success = false := by
  unfold handleFault at h
  rcases f with ⟨msg, _ | idv, fdb⟩
  · simp at h
  · dsimp only at h
    by_cases hid : idv.getD 0 ≠ 0
    · rw [if_pos hid] at h
      rcases huf : env.updStatusFailed with e | u <;> rw [huf] at h
      · simp at h
      · rcases hlf : env.logFailed with e | u <;> rw [hlf] at h
        · simp at h
        · simp at h
          obtain ⟨-, hres⟩ := h
          rw [← hres]
    · rw [if_neg hid] at h
      simp at h
      obtain ⟨-, hres⟩ := h
      rw [← hres]

/-- Characterization of a successful `try` block: `processBody` returns
`.ok` exactly with the happy-path result and database (document status
`needs_review` when a low-confidence field exists, else `completed`,
with the extracted text stored). -/
lemma processBody_ok_shape (env : PipeEnv) (db : DB) (res : ProcessingResult)
    (h : processBody env DB.init = .ok (db, res)) :
    ∃ docId t,
      env.create = .ok docId ∧ env.azureText = some t ∧ pyStrip t ≠ "" ∧
      res = { document_id := docId, success := true,
              extracted_data := some (extract_patient_data env.nlpRun t),
              errors := [],
              confidence_score :=
                calculate_overall_confidence (extract_patient_data env.nlpRun t) } ∧
      db.doc = docId.map (fun _ =>
        ({ status :=
             if (extract_patient_data env.nlpRun t).get_low_confidence_fields ≠ []
             then ProcessingStatus.needsReview else ProcessingStatus.completed,
           extracted_text := some t, processing_errors := none } : DocRecord)) := by
  unfold processBody at h
  rcases hc : env.create with e | docId <;> rw [hc] at h
  · simp at h
  · rcases hu1 : env.updStatusProcessing with e | u <;> rw [hu1] at h
    · simp at h
    · rcases hl1 : env.logStart with e | u <;> rw [hl1] at h
      · simp at h
      · rcases ha : env.azureText with - | t <;> rw [ha] at h
        · simp at h
        · dsimp only at h
          by_cases hpt : pyStrip t = ""
          · rw [if_pos hpt] at h; simp at h
          · rw [if_neg hpt] at h
            rcases hu2 : env.updStatusText with e | u <;> rw [hu2] at h
            · simp at h
            · rcases hpc : env.patientCreate with e | u <;> rw [hpc] at h
              · simp at h
              · rcases hu3 : env.updStatusFinal with e | u <;> rw [hu3] at h
                · simp at h
                · rcases hl2 : env.logFinal with e | u <;> rw [hl2] at h
                  · simp at h
                  · dsimp only at h
                    simp only [Except.ok.injEq, Prod.mk.injEq] at h
                    obtain ⟨hdb, hres⟩ := h
                    refine ⟨docId, t, rfl, rfl, hpt, ?_, ?_⟩
                    · rw [← hres]
                    · rw [← hdb]
                      rcases docId with - | i <;>
                        simp [DB.updateStatus, DB.addLog, DB.init]

/-- C2: whenever `process_document` returns `success=true`, the stored
document's final status is `needs_review` exactly when at least one of
the six extracted fields needs review (confidence < 0.75), `completed`
otherwise — and it is never `pending` or `processing`. -/
theorem C2_final_status (env : PipeEnv) (db : DB) (res : ProcessingResult)
    (rec : DocRecord)
    (hrun : process_document env DB.init = .ok (db, res))
    (hs : res.success = true)
    (hdoc : db.doc = some rec) :
    ∃ pd, res.extracted_data = some pd ∧
      rec.status = (if ∃ kv ∈ pd.fieldList, kv.2.needs_review = true
                    then ProcessingStatus.needsReview
                    else ProcessingStatus.completed) ∧
      rec.status ≠ ProcessingStatus.pending ∧
      rec.status ≠ ProcessingStatus.processing := by
  unfold process_document at hrun
  rcases hb : processBody env DB.init with f | r <;> rw [hb] at hrun
  · exact absurd (handleFault_success_false env f db res hrun) (by simp [hs])
  · simp only [Except.ok.injEq] at hrun
    subst hrun
    obtain ⟨docId, t, -, -, -, hres, hdb⟩ := processBody_ok_shape env db res hb
    subst hres
    refine ⟨extract_patient_data env.nlpRun t, rfl, ?_⟩
    rw [hdoc] at hdb
    rcases docId with _ | i
    · exact absurd hdb (by simp)
    · simp only [Option.map_some'] at hdb
      have hrec : rec.status =
          (if (extract_patient_data env.nlpRun t).get_low_confidence_fields ≠ []
           then ProcessingStatus.needsReview else ProcessingStatus.completed) := by
        rw [Option.some.inj hdb]
      have hcond : ((extract_patient_data env.nlpRun t).get_low_confidence_fields ≠ []) ↔
          (∃ kv ∈ (extract_patient_data env.nlpRun t).fieldList, kv.2.needs_review = true) := by
        unfold PatientData.get_low_confidence_fields
        rw [ne_eq, List.filter_eq_nil_iff]
        push_neg
        simp
      rw [hrec]
      by_cases hx : (extract_patient_data env.nlpRun t).get_low_confidence_fields ≠ []
      · rw [if_pos hx, if_pos (hcond.mp hx)]
        exact ⟨rfl, by decide, by decide⟩
      · rw [if_neg hx, if_neg (hcond.not.mp hx)]
        exact ⟨rfl, by decide, by decide⟩

/-- Witness: `C2_final_status` on a concrete fully successful run (all
fields empty, so the final status is `needs_review`). -/
theorem C2_final_status_witness :
    ∃ pd, (⟨some 1, true, some {}, [], 0⟩ : ProcessingResult).extracted_data = some pd ∧
      (⟨ProcessingStatus.needsReview, some "hello", none⟩ : DocRecord).status =
        (if ∃ kv ∈ pd.fieldList, kv.2.needs_review = true
         then ProcessingStatus.needsReview
         else ProcessingStatus.completed) ∧
      (⟨ProcessingStatus.needsReview, some "hello", none⟩ : DocRecord).status ≠
        ProcessingStatus.pending ∧
      (⟨ProcessingStatus.needsReview, some "hello", none⟩ : DocRecord).status ≠
        ProcessingStatus.processing :=
  C2_final_status c2Env
    ⟨some ⟨ProcessingStatus.needsReview, some "hello", none⟩,
     [⟨some 1, "processing", "Started document processing", 0⟩,
      ⟨some 1, "needs_review",
       "Document processed but needs human review for low-confidence fields", 0⟩],
     some {}⟩
    ⟨some 1, true, some {}, [], 0⟩
    ⟨ProcessingStatus.needsReview, some "hello", none⟩
    (by decide) rfl rfl

/-- The entity loop never writes the address field. -/
lemma applyEnt_address (pd : PatientData) (ent : String × String) :
    (applyEnt pd ent).address = pd.address := by
  unfold applyEnt
  split_ifs <;> rfl

/-- Folding the entity loop never writes the address field. -/
lemma foldl_applyEnt_address (ents : List (String × String)) (pd : PatientData) :
    (ents.foldl applyEnt pd).address = pd.address := by
  induction ents generalizing pd with
  | nil => rfl
  | cons e es ih => rw [List.foldl_cons, ih, applyEnt_address]

/-- `extract_patient_data` never assigns the address field: it stays
the empty `ExtractedField` with confidence 0. -/
lemma extract_patient_data_address (nl : Except String (List (String × String)))
    (t : String) : (extract_patient_data nl t).address = {} := by
  unfold extract_patient_data
  rcases nl with e | ents
  · rfl
  · cases h1 : extract_insurance_info t <;>
      cases h2 : extract_phone t <;>
      cases h3 : extract_email t <;>
      simp [h1, h2, h3, foldl_applyEnt_address]

/-- A `PatientData` whose address field is empty always has a
low-confidence field (the address itself, confidence 0 < 0.75). -/
lemma low_conf_nonempty_of_empty_address (pd : PatientData)
    (h : pd.address = {}) : pd.get_low_confidence_fields ≠ [] := by
  intro hempty
  unfold PatientData.get_low_confidence_fields at hempty
  rw [List.filter_eq_nil_iff] at hempty
  have hmem : ("address", pd.address) ∈ pd.fieldList := by
    simp [PatientData.fieldList]
  have hno := hempty _ hmem
  rw [h] at hno
  exact hno (by decide)

/-- C9: a successful `process_document` run always leaves the document
in `needs_review`, never `completed` — the NLP step never populates the
address field, so its confidence stays 0 (< 0.75) and the
low-confidence set is never empty; `completed` is unreachable through
the pipeline. -/
theorem C9_success_always_needs_review (env : PipeEnv) (db : DB)
    (res : ProcessingResult) (rec : DocRecord)
    (hrun : process_document env DB.init = .ok (db, res))
    (hs : res.success = true)
    (hdoc : db.doc = some rec) :
    rec.status = ProcessingStatus.needsReview ∧
    rec.status ≠ ProcessingStatus.completed := by
  unfold process_document at hrun
  rcases hb : processBody env DB.init with f | r <;> rw [hb] at hrun
  · exact absurd (handleFault_success_false env f db res hrun) (by simp [hs])
  · simp only [Except.ok.injEq] at hrun
    subst hrun
    obtain ⟨docId, t, -, -, -, -, hdb⟩ := processBody_ok_shape env db res hb
    rw [hdoc] at hdb
    rcases docId with _ | i
    · exact absurd hdb (by simp)
    · simp only [Option.map_some'] at hdb
      have hne : (extract_patient_data env.nlpRun t).get_low_confidence_fields ≠ [] :=
        low_conf_nonempty_of_empty_address _ (extract_patient_data_address _ _)
      rw [Option.some.inj hdb]
      dsimp only
      rw [if_pos hne]
      exact ⟨rfl, by decide⟩

/-- Witness: `C9_success_always_needs_review` on a concrete successful
run. -/
theorem C9_success_always_needs_review_witness :
    (⟨ProcessingStatus.needsReview, some "scan text", none⟩ : DocRecord).status =
      ProcessingStatus.needsReview ∧
    (⟨ProcessingStatus.needsReview, some "scan text", none⟩ : DocRecord).status ≠
      ProcessingStatus.completed :=
  C9_success_always_needs_review c9Env
    ⟨some ⟨ProcessingStatus.needsReview, some "scan text", none⟩,
     [⟨some 2, "processing", "Started document processing", 0⟩,
      ⟨some 2, "needs_review",
       "Document processed but needs human review for low-confidence fields", 0⟩],
     some {}⟩
    ⟨some 2, true, some {}, [], 0⟩
    ⟨ProcessingStatus.needsReview, some "scan text", none⟩
    (by decide) rfl rfl

/-- `qSevenTenths` is the rational 7/10. -/
lemma qSevenTenths_eq : qSevenTenths = 7/10 := by
  rw [qSevenTenths, Rat.mk'_eq_divInt]
  norm_num [Rat.divInt_eq_div]

/-- `sqlLtThreshold` holds exactly on non-NULL confidences below 0.75. -/
lemma sqlLtThreshold_iff (o : Option ℚ) :
    sqlLtThreshold o = true ↔ ∃ c, o = some c ∧ c < 3/4 := by
  cases o <;> simp [sqlLtThreshold, qThreeQuarters_eq]

/-- The `WHERE` clause of the review query in spec language: it
consults only the name, date-of-birth and insurance confidences. -/
lemma needingReviewPred_iff (d : DocRow) (p : Option PatientRow) :
    needingReviewPred d p = true ↔
      (d.status = ProcessingStatus.needsReview ∨
       ∃ pr, p = some pr ∧
         ((∃ c, pr.name_confidence = some c ∧ c < 3/4) ∨
          (∃ c, pr.dob_confidence = some c ∧ c < 3/4) ∨
          (∃ c, pr.insurance_confidence = some c ∧ c < 3/4))) := by
  cases p <;> simp [needingReviewPred, sqlLtThreshold_iff, or_assoc]

/-- C3 counterexample: a `completed` document whose linked patient row
has phone confidence 0.5 (< 0.75) but name/dob/insurance confidences
0.9.  The claim's union-of-six predicate selects it, yet
`get_needing_review` does not return it. -/
theorem C3_counterexample :
    claimNeedingReviewPred ⟨1, ProcessingStatus.completed⟩
        (some ⟨some qNineTenths, some qNineTenths, some qNineTenths,
               some qNineTenths, some qHalf, some qNineTenths⟩) = true ∧
    get_needing_review
        [(⟨1, ProcessingStatus.completed⟩,
          some ⟨some qNineTenths, some qNineTenths, some qNineTenths,
                some qNineTenths, some qHalf, some qNineTenths⟩)] = [] := by
  decide

/-- C3 (amended): `get_needing_review` returns exactly the documents
whose status is `needs_review` OR whose linked patient row has one of
the name / date-of-birth / insurance confidences below 0.75 — a union,
but over three of the six fields only. -/
theorem C3_review_query_membership (rows : List (DocRow × Option PatientRow))
    (d : DocRow) :
    d ∈ get_needing_review rows ↔
      ∃ p, (d, p) ∈ rows ∧
        (d.status = ProcessingStatus.needsReview ∨
         ∃ pr, p = some pr ∧
           ((∃ c, pr.name_confidence = some c ∧ c < 3/4) ∨
            (∃ c, pr.dob_confidence = some c ∧ c < 3/4) ∨
            (∃ c, pr.insurance_confidence = some c ∧ c < 3/4))) := by
  unfold get_needing_review
  simp only [List.mem_map, List.mem_filter]
  constructor
  · rintro ⟨⟨d2, p⟩, ⟨hmem, hpred⟩, rfl⟩
    exact ⟨p, hmem, (needingReviewPred_iff _ _).mp hpred⟩
  · rintro ⟨p, hmem, hcond⟩
    exact ⟨(d, p), ⟨hmem, (needingReviewPred_iff _ _).mpr hcond⟩, rfl⟩

/-- C7 counterexample: `"a.Pdf"` has a supported extension when matched
case-insensitively (the claim's reading), but the batch discovery —
which globs only the lowercase and the all-uppercase spelling of each
extension — misses it, so `process_batch` makes no `process` invocation
and returns no result for it. -/
theorem C7_counterexample :
    claimSupportedFile "a.Pdf" = true ∧
    supportedFiles ["a.Pdf"] = [] ∧
    process_batch ["a.Pdf"] (fun _ => c7Env) = [] := by
  refine ⟨by decide, by decide, ?_⟩
  have h : supportedFiles ["a.Pdf"] = [] := by decide
  rw [process_batch, h]
  rfl

/-- C7 (amended): batch processing yields exactly one result per
discovered file, in discovery order, each produced solely from that
file's own run (a fault in one file never aborts the others) — where a
file is discovered iff its name ends in a supported extension spelled
all-lowercase or all-uppercase. -/
theorem C7_batch_isolation (entries : List String) (envOf : String → PipeEnv) :
    ((process_batch entries envOf).length = (supportedFiles entries).length) ∧
    (∀ i : Nat, (process_batch entries envOf)[i]? =
      ((supportedFiles entries)[i]?).map
        (fun f => batchStep (process_document (envOf f) DB.init))) ∧
    (∀ f, f ∈ supportedFiles entries ↔
      f ∈ entries ∧ ∃ ext ∈ supported_formats,
        (strEndsWith f ext = true ∨ strEndsWith f (strToUpper ext) = true)) := by
  refine ⟨by simp [process_batch], fun i => ?_, fun f => ?_⟩
  · simp [process_batch, List.getElem?_map]
  · simp only [supportedFiles, List.mem_flatten, List.mem_map]
    constructor
    · rintro ⟨l, ⟨ext, hext, rfl⟩, hf⟩
      rcases List.mem_append.mp hf with hf2 | hf2 <;>
        rcases List.mem_filter.mp hf2 with ⟨hin, hend⟩
      · exact ⟨hin, ext, hext, Or.inl hend⟩
      · exact ⟨hin, ext, hext, Or.inr hend⟩
    · rintro ⟨hin, ext, hext, hend | hend⟩
      · exact ⟨_, ⟨ext, hext, rfl⟩,
          List.mem_append.mpr (Or.inl (List.mem_filter.mpr ⟨hin, hend⟩))⟩
      · exact ⟨_, ⟨ext, hext, rfl⟩,
          List.mem_append.mpr (Or.inr (List.mem_filter.mpr ⟨hin, hend⟩))⟩

/-- C8 counterexample: the input contains `"Call 555-123-4567"`, but
`re.search` returns the leftmost phone-shaped match, so extraction
yields `"(111) 222-3333"`, not `"(555) 123-4567"`. -/
theorem C8_counterexample :
    (∃ pre post : String,
      "111-222-3333 Call 555-123-4567" = pre ++ "Call 555-123-4567" ++ post) ∧
    extract_phone "111-222-3333 Call 555-123-4567" = some "(111) 222-3333" ∧
    some "(111) 222-3333" ≠ some "(555) 123-4567" := by
  exact ⟨⟨"111-222-3333 ", "", by decide⟩, by decide, by decide⟩

/-- Any text whose first phone-pattern match is the `555-123-4567`
occurrence — in particular any text starting with
`"Call 555-123-4567"` — extracts to exactly `"(555) 123-4567"`. -/
lemma phone_search_prefix (post : List Char) :
    reSearch matchPhoneAt ("Call 555-123-4567".data ++ post) =
      some "(555) 123-4567" := by
  have hdata : "Call 555-123-4567".data =
      ['C', 'a', 'l', 'l', ' ', '5', '5', '5', '-', '1', '2', '3', '-',
       '4', '5', '6', '7'] := rfl
  rw [hdata]
  simp [reSearch, matchPhoneAt, skipOpt, digitsN, isSepChar, isReSpace]

/-- The phone field written by `extract_patient_data` when the phone
extractor matches. -/
lemma extract_patient_data_phone (ents : List (String × String)) (text : String)
    (v : String) (hp : extract_phone text = some v) :
    (extract_patient_data (.ok ents) text).phone =
      ⟨some v, qSevenTenths, some v⟩ := by
  unfold extract_patient_data
  cases h1 : extract_insurance_info text <;>
    cases h3 : extract_email text <;>
      simp [h1, h3, hp]

/-- C8 (amended): for every text beginning with `"Call 555-123-4567"`
(so that this is the leftmost phone-shaped match), phone extraction
produces exactly `"(555) 123-4567"`, and the extracted phone field
carries fixed confidence 0.7. -/
theorem C8_phone_extraction (post : List Char) (ents : List (String × String)) :
    extract_phone (String.mk ("Call 555-123-4567".data ++ post)) =
      some "(555) 123-4567" ∧
    (extract_patient_data (.ok ents)
        (String.mk ("Call 555-123-4567".data ++ post))).phone.value =
      some "(555) 123-4567" ∧
    (extract_patient_data (.ok ents)
        (String.mk ("Call 555-123-4567".data ++ post))).phone.confidence =
      7/10 := by
  have hp : extract_phone (String.mk ("Call 555-123-4567".data ++ post)) =
      some "(555) 123-4567" := phone_search_prefix post
  have hfield := extract_patient_data_phone ents _ _ hp
  exact ⟨hp, by rw [hfield], by rw [hfield]; exact qSevenTenths_eq⟩

/-- C10: `update_patient_data` never lets a fault escape (a body fault
becomes a `False` return with the state reached so far), returns
`False` leaving the status untouched whenever the patient-field write
fails or faults, and moves the status — always to `completed` — only
when the patient-field write succeeded. -/
theorem C10_update_patient_data (env : ReviewEnv) (pd : PatientData)
    (st : ReviewState) (docId : Nat) :
    (∀ e st2, updatePatientBody env pd st docId = .error (e, st2) →
      update_patient_data env pd st docId = (false, st2)) ∧
    (∀ e, env.patientUpdate = .error e →
      update_patient_data env pd st docId = (false, st)) ∧
    (env.patientUpdate = .ok false →
      update_patient_data env pd st docId = (false, st)) ∧
    ((update_patient_data env pd st docId).2.status ≠ st.status →
      env.patientUpdate = .ok true ∧
      (update_patient_data env pd st docId).2.status =
        ProcessingStatus.completed) := by
  obtain ⟨pu, uc, lc⟩ := env
  refine ⟨?_, ?_, ?_, ?_⟩
  · intro e st2 hb
    rw [update_patient_data, hb]
  · intro e hp
    rw [update_patient_data, updatePatientBody]
    rw [show pu = Except.error e from hp]
  · intro hp
    rw [update_patient_data, updatePatientBody]
    rw [show pu = Except.ok false from hp]
    rfl
  · intro hchange
    unfold update_patient_data updatePatientBody at hchange ⊢
    rcases pu with e | ok
    · simp at hchange
    · rcases ok with - | -
      · simp at hchange
      · rcases uc with e | u
        · simp at hchange
        · rcases lc with e | u <;> exact ⟨rfl, rfl⟩

/-- Witness: `C10_update_patient_data` at a concrete faulting write —
the update returns `False` and the state is unchanged. -/
theorem C10_update_patient_data_witness :
    update_patient_data ⟨.error "db down", .ok (), .ok ()⟩ {}
        ⟨ProcessingStatus.needsReview, none, []⟩ 7 =
      (false, ⟨ProcessingStatus.needsReview, none, []⟩) :=
  (C10_update_patient_data ⟨.error "db down", .ok (), .ok ()⟩ {}
    ⟨ProcessingStatus.needsReview, none, []⟩ 7).2.1 "db down" rfl

end MedDoc
